import Mathlib

/-!
Verification of the GlobeCast whisper streaming server
(`whisper_streaming_server.py`) against its natural-language specification.

The development shallowly embeds the server's data model and operations:

* pure Python functions become Lean functions on `String`, `ℕ`, `ℚ` and lists;
* Python dicts become insertion-ordered association lists with Python's
  assignment/pop semantics (`dictSet`, `dictPop`, `dictModify`);
* fallible calls (HTTP providers, websocket sends, the whisper engine, the
  webrtcvad classifier) are modelled by explicit outcome environments, and the
  `try`/`except` structure of the source is mirrored by `Except`-valued
  intermediate results that are pattern-matched exactly where the source
  catches;
* floating point confidences and timestamps are modelled by `ℚ` (every literal
  in the source: 0.0, 0.1, 0.2, 0.3, 0.5, 0.9, 1.0 is exactly representable).
-/

namespace GlobeCast

/-! ## Python dict primitives

Python dicts preserve insertion order; assignment to an existing key replaces
the value in place, assignment to a fresh key appends, `pop` removes the entry.
We model them as association lists with unique keys.
-/

/-- Lookup in a Python dict (`d[k]` / `k in d` / `d.get(k)`). -/
def dictGet? {α : Type} : List (String × α) → String → Option α
  | [], _ => none
  | (a, b) :: t, k => if a = k then some b else dictGet? t k

/-- Python dict assignment `d[k] = v`: replace in place, or append when fresh. -/
def dictSet {α : Type} (m : List (String × α)) (k : String) (v : α) :
    List (String × α) :=
  if (dictGet? m k).isSome then
    m.map (fun p => if p.1 = k then (k, v) else p)
  else m ++ [(k, v)]

/-- Mutation of the object stored at key `k` (Python objects are aliased, so
mutating a session object mutates the registry entry). -/
def dictModify {α : Type} (m : List (String × α)) (k : String) (f : α → α) :
    List (String × α) :=
  m.map (fun p => if p.1 = k then (p.1, f p.2) else p)

/-- Python `d.pop(k, None)`: the removed value (if any) and the remaining dict. -/
def dictPop {α : Type} (m : List (String × α)) (k : String) :
    Option α × List (String × α) :=
  match dictGet? m k with
  | none => (none, m)
  | some v => (some v, m.eraseP (fun p => p.1 == k))

/-- Python truthiness of `text.strip()`: a string is blank iff every character
is whitespace (`not text.strip()`). -/
def isBlank (s : String) : Bool := s.toList.all Char.isWhitespace

/-- Python `str.strip()`: drop leading and trailing whitespace. -/
def py_strip (s : String) : String :=
  String.mk
    (((s.toList.dropWhile Char.isWhitespace).reverse.dropWhile
      Char.isWhitespace).reverse)

/-- Python `str.lower()`, restricted to ASCII case mapping (the texts the
claims evaluate are unaffected by the difference). -/
def py_lower (s : String) : String := String.mk (s.toList.map Char.toLower)

/-- Python substring membership `needle in hay` on character lists. -/
def contains_sub (needle : List Char) : List Char → Bool
  | [] => needle.isEmpty
  | c :: rest => needle.isPrefixOf (c :: rest) || contains_sub needle rest

/-! ## EnhancedTranslator

`EnhancedTranslator.translate` consults HTTP providers.  A provider call, as
observed by the `await` in the provider loop, either raises an exception
(network error, timeout bubbling out of `_translate_with_provider`) or returns
a `(text, confidence)` pair; `_translate_google` / `_translate_mymemory`
already map their own HTTP failures to `(text, 0.0)`, which the loop treats as
a non-result because the returned text equals the input.  We model the
behaviour of each provider at this call as an environment. -/

/-- Observable outcome of one provider attempt. -/
inductive ProviderOutcome where
  | raises (msg : String)
  | returns (text : String) (confidence : ℚ)
deriving DecidableEq

/-- Exceptions crossing a function boundary inside the translator. -/
inductive TransExc where
  | providerError (msg : String)
deriving DecidableEq

/-- One awaited provider request (`await self._translate_with_provider(...)`). -/
def provider_request (env : String → ProviderOutcome) (name : String) :
    Except TransExc (String × ℚ) :=
  match env name with
  | ProviderOutcome.raises msg => Except.error (TransExc.providerError msg)
  | ProviderOutcome.returns t c => Except.ok (t, c)

/-- `self.cache_size_limit = 5000` from `EnhancedTranslator.__init__`. -/
def cache_size_limit : ℕ := 5000

/-- `self.providers`: provider name and `enabled` flag, in dict insertion
order (`google` before `mymemory`).  Rate limits only delay requests and do
not affect returned values. -/
def providers : List (String × Bool) := [("google", true), ("mymemory", true)]

/-- Result of the provider fallback loop in `translate`. -/
structure ProvLoopOut where
  ret : String × ℚ
  cache : List (String × String)
  calls : List String
  credited : Option String
deriving DecidableEq

/-- The provider loop of `EnhancedTranslator.translate` (lines 206-227):
for each enabled provider, attempt a translation; an exception is caught
(`except Exception: continue`); a result that is empty or identical to the
input is a non-result and the next provider is tried; a changed result is
cached when the cache is below its capacity and returned.  `calls` records
the providers attempted, `credited` the provider whose stats counter is
incremented. -/
def try_providers (env : String → ProviderOutcome) (text : String)
    (cache : List (String × String)) (key : String) :
    List (String × Bool) → ProvLoopOut
  | [] => ⟨(text, 0), cache, [], none⟩
  | (name, enabled) :: rest =>
    if enabled then
      match provider_request env name with
      | Except.error _ =>
          let o := try_providers env text cache key rest
          ⟨o.ret, o.cache, name :: o.calls, o.credited⟩
      | Except.ok (result, confidence) =>
          if result ≠ "" ∧ result ≠ text then
            ⟨(result, confidence),
             if cache.length < cache_size_limit then cache ++ [(key, result)]
             else cache,
             [name], some name⟩
          else
            let o := try_providers env text cache key rest
            ⟨o.ret, o.cache, name :: o.calls, o.credited⟩
    else try_providers env text cache key rest

/-- `EnhancedTranslator._normalize_lang_code`. -/
def normalize_lang_code (c : String) : String :=
  if c = "zh" then "zh-cn" else if c = "auto" then "auto" else c

/-- Observable result of one `translate` call: returned pair, cache after the
call, providers attempted, number of cache lookups performed, and the provider
credited in `translation_stats`. -/
structure TranslateOut where
  ret : String × ℚ
  cache : List (String × String)
  provider_calls : List String
  cache_lookups : ℕ
  credited : Option String
deriving DecidableEq

/-- `EnhancedTranslator.translate` (lines 187-230).  The `Except` codomain
makes "raises to the caller" expressible; every raise site (a provider
request) is caught inside `try_providers`, mirroring the source. -/
def translate (env : String → ProviderOutcome) (cache : List (String × String))
    (text target_lang0 source_lang0 : String) : Except TransExc TranslateOut :=
  if isBlank text then Except.ok ⟨(text, 0), cache, [], 0, none⟩
  else
    let source_lang := normalize_lang_code source_lang0
    let target_lang := normalize_lang_code target_lang0
    if source_lang = target_lang ∧ source_lang ≠ "auto" then
      Except.ok ⟨(text, 1), cache, [], 0, none⟩
    else
      let cache_key := text.take 100 ++ ":" ++ source_lang ++ ":" ++ target_lang
      match dictGet? cache cache_key with
      | some v => Except.ok ⟨(v, 9/10), cache, [], 1, none⟩
      | none =>
        let o := try_providers env text cache cache_key providers
        Except.ok ⟨o.ret, o.cache, o.calls, 1, o.credited⟩

/-- A provider outcome that `translate` treats as a failure: an exception, a
timeout (which surfaces as an exception or as text identical to the input),
or a result that is empty or identical to the input. -/
def failing_outcome (text : String) : ProviderOutcome → Bool
  | ProviderOutcome.raises _ => true
  | ProviderOutcome.returns t _ => t = "" || t = text

/-- One `translate` call, for reasoning about call sequences. -/
structure TransCall where
  env : String → ProviderOutcome
  text : String
  target_lang : String
  source_lang : String

/-- Cache evolution across a sequence of `translate` calls. -/
def apply_translate (cache : List (String × String)) (c : TransCall) :
    List (String × String) :=
  match translate c.env cache c.text c.target_lang c.source_lang with
  | Except.ok o => o.cache
  | Except.error _ => cache

/-! ## AudioProcessor voice-activity detection -/

/-- `self.sample_rate = 16000`. -/
def sample_rate : ℕ := 16000

/-- `self.frame_duration_ms = 30`. -/
def frame_duration_ms : ℕ := 30

/-- `self.frame_size = int(self.sample_rate * self.frame_duration_ms / 1000)`,
i.e. 480 samples (= 960 bytes of 16-bit PCM). -/
def frame_size : ℕ := sample_rate * frame_duration_ms / 1000

/-- Outcome of `self.vad.is_speech(frame, ...)` on one frame: classified as
speech, classified as non-speech, or raising (caught by the per-frame
`except: continue`). -/
inductive FrameOutcome where
  | speech
  | nonspeech
  | errored
deriving DecidableEq

/-- `range(0, stop, step)` for a non-negative stop and positive step. -/
def python_range0 (stop step : ℕ) : List ℕ :=
  (List.range ((stop + step - 1) / step)).map (fun k => k * step)

/-- Frame counters accumulated by `_detect_voice_activity`'s loop. -/
structure VadCounts where
  voice_frames : ℕ
  total_frames : ℕ
deriving DecidableEq

/-- The frame loop of `_detect_voice_activity`: frames start at
`range(0, len(audio_data) - frame_size*2, frame_size*2)`; a frame whose
classification raises is skipped and counted as neither class. -/
def vad_counts (audioLen : ℕ) (classify : ℕ → FrameOutcome) : VadCounts :=
  (python_range0 (audioLen - frame_size * 2) (frame_size * 2)).foldl
    (fun acc i =>
      match classify i with
      | FrameOutcome.speech => ⟨acc.voice_frames + 1, acc.total_frames + 1⟩
      | FrameOutcome.nonspeech => ⟨acc.voice_frames, acc.total_frames + 1⟩
      | FrameOutcome.errored => acc)
    ⟨0, 0⟩

/-- `AudioProcessor._detect_voice_activity` (lines 395-427).  `audioLen` is
`len(audio_data)` in bytes, `classify` gives the outcome of the webrtcvad
classifier on the frame starting at each byte offset, and `vad_crashed`
models the outer `except Exception: return True` (fail-open). -/
def detect_voice_activity (audioLen : ℕ) (classify : ℕ → FrameOutcome)
    (vad_crashed : Bool) : Bool :=
  if vad_crashed then true
  else if audioLen < frame_size * 2 then false
  else
    let c := vad_counts audioLen classify
    if c.total_frames = 0 then false
    else decide ((c.voice_frames : ℚ) / (c.total_frames : ℚ) ≥ 3/10)

/-! ## Data model of the server -/

/-- The `TranscriptionResult` dataclass (lines 43-60). -/
structure TranscriptionResult where
  speaker_id : String
  speaker_name : String
  original_text : String
  original_language : String
  original_language_confidence : ℚ
  translated_text : String
  target_language : String
  transcription_confidence : ℚ
  translation_confidence : ℚ
  is_final : Bool
  timestamp : ℚ
  audio_duration : ℚ
  processing_time : ℚ
  is_voice : Bool
  audio_quality : ℚ
deriving DecidableEq

/-- An entry of a session's `audio_buffer` queue, as built by
`handle_audio_data` (the back-reference to the session is implicit: chunks
live in that session's queue). -/
structure AudioChunk where
  audio_data : List ℕ
  speaker_id : String
  speaker_name : String
  timestamp : ℚ
deriving DecidableEq

/-- The `ClientSession` dataclass (lines 62-75), with the
`processing_stats` dict flattened into its four counters and the websocket
represented by a connection identifier.  `audio_buffer_maxsize` is the
`maxsize` the `queue.Queue` was created with. -/
structure ClientSession where
  websocket : ℕ
  user_id : String
  display_name : String
  target_language : String
  native_language : String
  last_activity : ℚ
  audio_buffer : List AudioChunk
  audio_buffer_maxsize : ℕ
  is_active : Bool
  chunks_received : ℕ
  transcriptions_sent : ℕ
  translations_sent : ℕ
  errors : ℕ
deriving DecidableEq

/-- The `self.stats` dict of `WhisperStreamingServer` (start time omitted). -/
structure ServerStats where
  total_clients : ℕ
  active_clients : ℕ
  total_audio_processed : ℚ
  total_transcriptions : ℕ
  total_translations : ℕ
  average_processing_time : ℚ
  error_count : ℕ
deriving DecidableEq

/-- The mutable server state relevant to the claims: the session registry
`self.clients`, the capacity `self.max_clients`, the aggregate stats, and the
translator cache. -/
structure ServerState where
  clients : List (String × ClientSession)
  max_clients : ℕ
  stats : ServerStats
  trans_cache : List (String × String)
deriving DecidableEq

/-- `WhisperStreamingServer.__init__`: empty registry, zeroed counters. -/
def initial_state (max_clients : ℕ) : ServerState :=
  { clients := [], max_clients := max_clients,
    stats := ⟨0, 0, 0, 0, 0, 0, 0⟩, trans_cache := [] }

/-- `EnhancedLanguageDetector.LANGUAGE_MAP` (lines 80-88), in dict order. -/
def LANGUAGE_MAP : List (String × Option String) :=
  [("auto", none), ("en", some "english"), ("vi", some "vietnamese"),
   ("zh", some "chinese"), ("ja", some "japanese"), ("ko", some "korean"),
   ("fr", some "french"), ("de", some "german"), ("es", some "spanish"),
   ("ar", some "arabic"), ("ru", some "russian"), ("pt", some "portuguese"),
   ("it", some "italian"), ("th", some "thai"), ("hi", some "hindi"),
   ("nl", some "dutch"), ("pl", some "polish"), ("tr", some "turkish"),
   ("sv", some "swedish")]

/-- `EnhancedLanguageDetector.get_whisper_language`. -/
def get_whisper_language (code : String) : Option String :=
  (dictGet? LANGUAGE_MAP (py_lower code)).getD none

/-- The optional fields of a `connect` message consumed by
`register_client`. -/
structure UserData where
  userId : Option String
  displayName : Option String
  displayLanguage : Option String
  nativeLanguage : Option String
deriving DecidableEq

/-- Messages the server writes to a websocket (only the shapes the claims
mention). -/
inductive OutMsg where
  | connection_established (userId : String)
  | error_msg (msg : String)
  | transcription_result (r : TranscriptionResult)
deriving DecidableEq

/-- Result of `register_client`: the new state, the returned boolean, and the
messages written (websocket id, message). -/
structure RegisterOut where
  state : ServerState
  success : Bool
  sent : List (ℕ × OutMsg)
deriving DecidableEq

/-- `WhisperStreamingServer.register_client` (lines 516-570).  `ws` is the
connection, `genId` the generated fallback id (`f'user_{int(time.time()*1000)}'`)
and `now` the current time. -/
def register_client (st : ServerState) (ws : ℕ) (ud : UserData)
    (genId : String) (now : ℚ) : RegisterOut :=
  if st.clients.length ≥ st.max_clients then
    ⟨st, false, [(ws, OutMsg.error_msg "Server at maximum capacity")]⟩
  else
    let user_id := ud.userId.getD genId
    let display_name := ud.displayName.getD "Anonymous User"
    let target_language0 := ud.displayLanguage.getD "en"
    let native_language := ud.nativeLanguage.getD "auto"
    let target_language :=
      if (dictGet? LANGUAGE_MAP target_language0).isSome then target_language0
      else "en"
    let session : ClientSession :=
      { websocket := ws, user_id := user_id, display_name := display_name,
        target_language := target_language, native_language := native_language,
        last_activity := now, audio_buffer := [], audio_buffer_maxsize := 100,
        is_active := true, chunks_received := 0, transcriptions_sent := 0,
        translations_sent := 0, errors := 0 }
    let clients := dictSet st.clients user_id session
    ⟨{ st with
        clients := clients
        stats := { st.stats with
                    total_clients := st.stats.total_clients + 1
                    active_clients := clients.length } },
     true, [(ws, OutMsg.connection_established user_id)]⟩

/-- `WhisperStreamingServer._cleanup_client` (lines 789-795):
`self.clients.pop(user_id, None)`; when a session was removed, mark the popped
object inactive and recompute `active_clients` from the registry size. -/
def cleanup_client (st : ServerState) (user_id : String) : ServerState :=
  match dictGet? st.clients user_id with
  | none => st
  | some _ =>
    let clients := st.clients.eraseP (fun p => p.1 == user_id)
    { st with
        clients := clients
        stats := { st.stats with active_clients := clients.length } }

/-- One registry operation, for reasoning about operation sequences. -/
inductive RegOp where
  | register (ws : ℕ) (ud : UserData) (genId : String) (now : ℚ)
  | cleanup (id : String)

/-- Apply one registry operation to a server state. -/
def apply_reg_op (st : ServerState) : RegOp → ServerState
  | RegOp.register ws ud genId now => (register_client st ws ud genId now).state
  | RegOp.cleanup id => cleanup_client st id

/-! ## Audio ingestion (`handle_audio_data`) -/

/-- The fields of an `audio_data` message consumed by `handle_audio_data`:
`audioData` is the base64 payload (`''` when absent). -/
structure AudioMsg where
  audioData : String
  speakerId : Option String
  speakerName : Option String

/-- `WhisperStreamingServer.handle_audio_data` (lines 572-609).  `b64decode`
models `base64.b64decode` (`none` = decode error, logged and dropped).  An
empty payload returns immediately; otherwise activity and the received
counter are updated, and the chunk is enqueued only when the bounded queue is
not full (`queue.full()` is `qsize >= maxsize`), else dropped with a
warning. -/
def handle_audio_data (session : ClientSession) (msg : AudioMsg)
    (b64decode : String → Option (List ℕ)) (now : ℚ) : ClientSession :=
  let speaker_id := msg.speakerId.getD session.user_id
  let speaker_name := msg.speakerName.getD session.display_name
  if msg.audioData = "" then session
  else
    match b64decode msg.audioData with
    | none => session
    | some audio_bytes =>
      let session := { session with
                        last_activity := now
                        chunks_received := session.chunks_received + 1 }
      if session.audio_buffer.length < session.audio_buffer_maxsize then
        { session with audio_buffer := session.audio_buffer ++
            [⟨audio_bytes, speaker_id, speaker_name, now⟩] }
      else session

/-- The drain loop of `_background_processor` (lines 621-627):
`while not session.audio_buffer.empty() and len(audio_chunks) < 5:` pop from
the front.  Returns the drained batch and the remaining queue. -/
def collect_chunks : List AudioChunk → List AudioChunk →
    List AudioChunk × List AudioChunk
  | [], acc => (acc, [])
  | c :: rest, acc =>
    if acc.length < 5 then collect_chunks rest (acc ++ [c])
    else (acc, c :: rest)

/-- One operation touching a session's audio queue. -/
inductive BufOp where
  | audio (msg : AudioMsg) (now : ℚ)
  | drain

/-- Apply one queue operation to a session. -/
def apply_buf_op (b64 : String → Option (List ℕ)) (s : ClientSession) :
    BufOp → ClientSession
  | BufOp.audio msg now => handle_audio_data s msg b64 now
  | BufOp.drain => { s with audio_buffer := (collect_chunks s.audio_buffer []).2 }

/-! ## Broadcast / fan-out -/

/-- Behaviour of `websocket.send` on a given connection during one
broadcast. -/
inductive SendOutcome where
  | ok
  | conn_closed
  | err (msg : String)
deriving DecidableEq

/-- Exceptions a raw websocket send can raise. -/
inductive WsExc where
  | connection_closed
  | other (msg : String)
deriving DecidableEq

/-- `await websocket.send(json.dumps(message))`. -/
def websocket_send (o : SendOutcome) : Except WsExc Unit :=
  match o with
  | SendOutcome.ok => Except.ok ()
  | SendOutcome.conn_closed => Except.error WsExc.connection_closed
  | SendOutcome.err m => Except.error (WsExc.other m)

/-- `WhisperStreamingServer.send_message` (lines 845-852): the raw send is
wrapped in `try`/`except`; `ConnectionClosed` is passed over and any other
exception is logged, so `send_message` itself never raises. -/
def send_message (env : ℕ → SendOutcome) (ws : ℕ) : Except WsExc Unit :=
  match websocket_send (env ws) with
  | Except.ok _ => Except.ok ()
  | Except.error WsExc.connection_closed => Except.ok ()
  | Except.error (WsExc.other _) => Except.ok ()

/-- `"close code" in str(e).lower()` (line 781). -/
def contains_close_code (m : String) : Bool :=
  contains_sub "close code".toList (py_lower m).toList

/-- Result of `broadcast_transcription`: the state after the fan-out and the
deferred cleanups, the user ids whose connection actually received the
message, and the `disconnected_clients` list the source accumulated. -/
structure BroadcastOut where
  state : ServerState
  delivered : List String
  disconnected : List String
deriving DecidableEq

/-- `WhisperStreamingServer.broadcast_transcription` (lines 762-787): iterate
over all sessions, send to the active ones via `send_message`, handle a
`ConnectionClosed` (or an error whose text mentions a close code) raised by
the send by marking the session inactive and recording it, and only after
the iteration clean up the recorded sessions.  `delivered` records the
sessions whose underlying send succeeded. -/
def broadcast_transcription (st : ServerState) (env : ℕ → SendOutcome)
    (_result : TranscriptionResult) : BroadcastOut :=
  let step := fun (acc : List (String × ClientSession) × List String × List String)
                  (p : String × ClientSession) =>
    let cls := acc.1
    let delivered := acc.2.1
    let disc := acc.2.2
    let uid := p.1
    let session := p.2
    if session.is_active then
      match send_message env session.websocket with
      | Except.ok _ =>
          (cls ++ [(uid, session)],
           delivered ++ (if env session.websocket = SendOutcome.ok then [uid] else []),
           disc)
      | Except.error WsExc.connection_closed =>
          (cls ++ [(uid, { session with is_active := false })], delivered,
           disc ++ [uid])
      | Except.error (WsExc.other m) =>
          if contains_close_code m then
            (cls ++ [(uid, { session with is_active := false })], delivered,
             disc ++ [uid])
          else (cls ++ [(uid, session)], delivered, disc)
    else (cls ++ [(uid, session)], delivered, disc)
  let r := st.clients.foldl step ([], [], [])
  let st1 := { st with clients := r.1 }
  ⟨r.2.2.foldl cleanup_client st1, r.2.1, r.2.2⟩

/-! ## EnhancedLanguageDetector.detect_language_from_text

Pure text heuristic (lines 101-156).  Python's `str.lower` is modelled by
`String.toLower` (ASCII lowering; the texts the claims evaluate are already
lowercase where it matters). -/

/-- `LANGUAGE_PATTERNS['vi']` as a character set. -/
def LANGUAGE_PATTERNS_vi : List Char :=
  "àáạảãâầấậẩẫăằắặẳẵèéẹẻẽêềếệểễìíịỉĩòóọỏõôồốộổỗơờớợởỡùúụủũưừứựửữỳýỵỷỹđ".toList

/-- `LANGUAGE_PATTERNS['ru']` as a character set. -/
def LANGUAGE_PATTERNS_ru : List Char :=
  "абвгдеёжзийклмнопрстуфхцчшщъыьэюя".toList

/-- The character-based match counts, one per entry of `LANGUAGE_PATTERNS`
in dict order: unicode-range counting over the raw text for zh/ja/ko/ar/th,
character-set counting over the lowercased text for vi/ru. -/
def pattern_matches (text : String) : List (String × ℕ) :=
  let tl := text.toList
  let low := (py_lower text).toList
  [("vi", (low.filter (fun c => LANGUAGE_PATTERNS_vi.contains c)).length),
   ("zh", (tl.filter (fun c => decide ('一' ≤ c ∧ c ≤ '鿿'))).length),
   ("ja", (tl.filter (fun c => decide (('぀' ≤ c ∧ c ≤ 'ゟ') ∨
            ('゠' ≤ c ∧ c ≤ 'ヿ')))).length),
   ("ko", (tl.filter (fun c => decide ('가' ≤ c ∧ c ≤ '힯'))).length),
   ("ar", (tl.filter (fun c => decide ('؀' ≤ c ∧ c ≤ 'ۿ'))).length),
   ("ru", (low.filter (fun c => LANGUAGE_PATTERNS_ru.contains c)).length),
   ("th", (tl.filter (fun c => decide ('฀' ≤ c ∧ c ≤ '๿'))).length)]

/-- `scores.get(lang, 0)`. -/
def scores_get (m : List (String × ℚ)) (k : String) : ℚ :=
  (dictGet? m k).getD 0

/-- The character-based scoring loop: `scores[lang] = matches / len(text)`
for each pattern language with a positive match count. -/
def scores_after_chars (text : String) : List (String × ℚ) :=
  (pattern_matches text).foldl
    (fun sc p =>
      if p.2 > 0 then dictSet sc p.1 ((p.2 : ℚ) / (text.length : ℚ)) else sc)
    []

/-- The `common_words` table (lines 134-142), in dict order. -/
def common_words : List (String × List String) :=
  [("en", ["the", "is", "and", "to", "a", "in", "it", "you", "that", "of"]),
   ("vi", ["là", "của", "có", "và", "với", "được", "trong", "cho", "từ", "một"]),
   ("fr", ["le", "de", "et", "à", "un", "il", "être", "et", "en", "avoir"]),
   ("de", ["der", "die", "und", "in", "den", "von", "zu", "das", "mit", "sich"]),
   ("es", ["el", "de", "que", "y", "a", "en", "un", "es", "se", "no"]),
   ("pt", ["o", "de", "que", "e", "do", "a", "em", "para", "é", "com"]),
   ("it", ["il", "di", "che", "e", "la", "per", "una", "in", "del", "è"])]

/-- Helper for `py_split`: accumulate the current word (reversed). -/
def py_split_go : List Char → List Char → List String
  | [], cur => if cur.isEmpty then [] else [String.mk cur.reverse]
  | c :: cs, cur =>
    if c.isWhitespace then
      if cur.isEmpty then py_split_go cs []
      else String.mk cur.reverse :: py_split_go cs []
    else py_split_go cs (c :: cur)

/-- Python `text.split()`: split on whitespace runs, discard empty pieces. -/
def py_split (s : String) : List String := py_split_go s.toList []

/-- The word-based scoring loop:
`scores[lang] = scores.get(lang, 0) + (matches / len(words)) * 0.5`. -/
def word_scores (text : String) (sc0 : List (String × ℚ)) :
    List (String × ℚ) :=
  let words := py_split (py_lower text)
  common_words.foldl
    (fun sc p =>
      let nmatches := (words.filter (fun w => p.2.contains w)).length
      if nmatches > 0 then
        dictSet sc p.1
          (scores_get sc p.1 + ((nmatches : ℚ) / (words.length : ℚ)) * (1/2))
      else sc)
    sc0

/-- `EnhancedLanguageDetector.detect_language_from_text` (lines 101-156):
blank text yields `('en', 0.0)`; an empty score table yields `('en', 0.1)`;
otherwise the first language with the maximal score, with confidence capped
at 1. -/
def detect_language_from_text (text : String) : String × ℚ :=
  if isBlank text then ("en", 0)
  else
    match word_scores text (scores_after_chars text) with
    | [] => ("en", 1/10)
    | h :: t =>
      let best := t.foldl (fun b p => if p.2 > b.2 then p else b) h
      (best.1, min best.2 1)

/-! ## Scheduler: transcription and the background pass -/

/-- One text segment returned by the whisper engine. -/
structure Segment where
  text : String
  avg_logprob : ℚ
deriving DecidableEq

/-- The per-call info object returned by the whisper engine
(`info.language` may be `None`). -/
structure TransInfo where
  language : Option String
  language_probability : ℚ
deriving DecidableEq

/-- Accumulator of the segment loop in `_transcribe_audio`. -/
structure TranscribeAcc where
  results : List TranscriptionResult
  stats : ServerStats
  cache : List (String × String)

/-- `WhisperStreamingServer._transcribe_audio` (lines 684-760).  `engine` is
the outcome of `self.model.transcribe` together with iterating its segments
(an external collaborator; `Except.error` = engine failure).  The segment
loop runs in the `Except` monad so that an exception escaping mid-loop would
preserve the stats and cache mutations already applied, exactly as Python
object mutation would; the enclosing `except` (lines 757-760) logs and
returns `[]` while keeping those mutations. -/
def transcribe_audio (audioLen : ℕ)
    (engine : Except Unit (List Segment × TransInfo))
    (penv : String → ProviderOutcome) (target_language : String)
    (speaker_id speaker_name : String)
    (meta_duration : ℚ) (meta_is_voice : Bool) (meta_quality : ℚ) (now : ℚ)
    (stats : ServerStats) (cache : List (String × String)) :
    List TranscriptionResult × ServerStats × List (String × String) :=
  if audioLen = 0 then ([], stats, cache)
  else
    match engine with
    | Except.error _ => ([], stats, cache)
    | Except.ok (segments, info) =>
      let step : TranscribeAcc → Segment → Except TranscribeAcc TranscribeAcc :=
        fun acc segment =>
          let t := py_strip segment.text
          if t = "" ∨ t.length < 3 then Except.ok acc
          else
            let original_text := t
            let detected0 :=
              match info.language with
              | none => "en"
              | some l => if l = "" then "en" else l
            let d := detect_language_from_text original_text
            let detected_lang := if d.2 > 1/2 then d.1 else detected0
            let tr : Except TranscribeAcc (String × ℚ × List (String × String)) :=
              if detected_lang ≠ target_language then
                match translate penv acc.cache original_text target_language detected_lang with
                | Except.ok o => Except.ok (o.ret.1, o.ret.2, o.cache)
                | Except.error _ => Except.error acc
              else Except.ok (original_text, 1, acc.cache)
            match tr with
            | Except.error a => Except.error a
            | Except.ok (translated_text, translation_confidence, cache1) =>
              let result : TranscriptionResult :=
                { speaker_id := speaker_id, speaker_name := speaker_name,
                  original_text := original_text,
                  original_language := detected_lang,
                  original_language_confidence := info.language_probability,
                  translated_text := translated_text,
                  target_language := target_language,
                  transcription_confidence := segment.avg_logprob,
                  translation_confidence := translation_confidence,
                  is_final := true, timestamp := now,
                  audio_duration := meta_duration, processing_time := 0,
                  is_voice := meta_is_voice, audio_quality := meta_quality }
              Except.ok
                { results := acc.results ++ [result],
                  stats := { acc.stats with
                              total_transcriptions := acc.stats.total_transcriptions + 1
                              total_translations := acc.stats.total_translations +
                                (if translated_text ≠ original_text then 1 else 0) },
                  cache := cache1 }
      match segments.foldlM step ⟨[], stats, cache⟩ with
      | Except.ok acc => (acc.results, acc.stats, acc.cache)
      | Except.error acc => ([], acc.stats, acc.cache)

/-- Metadata returned by `AudioProcessor.process_audio`.  The DSP internals
(numpy RMS / FFT over floats) are treated as an oracle at this interface;
`array_len` is `len(audio_array)`. -/
structure AudioMeta where
  array_len : ℕ
  is_voice : Bool
  quality : ℚ
  snr : ℚ
  duration : ℚ
deriving DecidableEq

/-- Environment of one scheduler pass: the audio-processing oracle, the
whisper engine keyed by the combined audio bytes, the translation-provider
outcomes, the websocket behaviours, and the measured processing time. -/
structure PassEnv where
  process_audio : List ℕ → AudioMeta
  engine : List ℕ → Except Unit (List Segment × TransInfo)
  penv : String → ProviderOutcome
  send : ℕ → SendOutcome
  ptime : ℚ
  now : ℚ

/-- `WhisperStreamingServer._process_audio_chunks` (lines 639-682) for the
session registered under `uid`: combine the drained chunks, run the quality
gate, transcribe, update aggregate stats, then broadcast each result and bump
the session's counters.  Returns the new state and the results broadcast. -/
def process_audio_chunks (st : ServerState) (env : PassEnv) (uid : String)
    (session : ClientSession) (chunks : List AudioChunk) :
    ServerState × List TranscriptionResult :=
  match chunks with
  | [] => (st, [])
  | c0 :: _ =>
    let combined := (chunks.map (fun c => c.audio_data)).flatten
    let speaker_id := c0.speaker_id
    let speaker_name := c0.speaker_name
    let meta := env.process_audio combined
    if ¬ meta.is_voice ∨ meta.quality < 1/5 then (st, [])
    else
      let tr := transcribe_audio meta.array_len (env.engine combined) env.penv
                  session.target_language speaker_id speaker_name
                  meta.duration meta.is_voice meta.quality env.now
                  st.stats st.trans_cache
      let stats1 := { tr.2.1 with
                        total_audio_processed :=
                          tr.2.1.total_audio_processed + meta.duration
                        average_processing_time :=
                          tr.2.1.average_processing_time * (9/10) + env.ptime * (1/10) }
      let st1 := { st with stats := stats1, trans_cache := tr.2.2 }
      tr.1.foldl
        (fun (acc : ServerState × List TranscriptionResult) result =>
          let stB := (broadcast_transcription acc.1 env.send result).state
          let stC := { stB with
                        clients := dictModify stB.clients uid (fun s =>
                          { s with
                              transcriptions_sent := s.transcriptions_sent + 1
                              translations_sent := s.translations_sent +
                                (if result.translated_text ≠ result.original_text
                                 then 1 else 0) }) }
          (stC, acc.2 ++ [result]))
        (st1, [])

/-- One iteration of the `for user_id, session in list(self.clients.items())`
loop of `_background_processor` (lines 616-631): skip inactive sessions,
drain up to five chunks, and process a non-empty batch.  `visited` records
every session the loop reached. -/
def pass_step (env : PassEnv)
    (acc : ServerState × List TranscriptionResult × List String)
    (uid : String) : ServerState × List TranscriptionResult × List String :=
  let st := acc.1
  let visited := acc.2.2 ++ [uid]
  match dictGet? st.clients uid with
  | none => (st, acc.2.1, visited)
  | some session =>
    if session.is_active = false then (st, acc.2.1, visited)
    else
      let drained := collect_chunks session.audio_buffer []
      if drained.1 = [] then (st, acc.2.1, visited)
      else
        let clients1 := dictModify st.clients uid
          (fun s => { s with audio_buffer := drained.2 })
        let st1 := { st with clients := clients1 }
        let session1 := { session with audio_buffer := drained.2 }
        let r := process_audio_chunks st1 env uid session1 drained.1
        (r.1, acc.2.1 ++ r.2, visited)

/-- Result of one full scheduler pass. -/
structure PassOut where
  state : ServerState
  broadcasts : List TranscriptionResult
  visited : List String
deriving DecidableEq

/-- One pass of `WhisperStreamingServer._background_processor` (lines
611-637) over the snapshot of registered session ids. -/
def background_pass (st : ServerState) (env : PassEnv) : PassOut :=
  let r := (st.clients.map Prod.fst).foldl (pass_step env) (st, [], [])
  ⟨r.1, r.2.1, r.2.2⟩

/-! ## Concrete instances used by witnesses and counterexamples -/

/-- An environment in which every provider request raises (network timeout). -/
def fail_env : String → ProviderOutcome := fun _ => ProviderOutcome.raises "timeout"

/-- A cache holding a translation for the pair (en, en). -/
def c7_cache : List (String × String) := [("hello:en:en", "HELLO")]

/-- A cache holding a translation for (en, vi). -/
def c7_hit_cache : List (String × String) := [("hello:en:vi", "xin chao")]

/-- A cache already at `cache_size_limit`. -/
def big_cache : List (String × String) := List.replicate 5000 ("k", "v")

/-- A registered session used by several concrete scenarios. -/
def alice : ClientSession :=
  { websocket := 0, user_id := "alice", display_name := "Alice",
    target_language := "en", native_language := "auto", last_activity := 0,
    audio_buffer := [], audio_buffer_maxsize := 100, is_active := true,
    chunks_received := 0, transcriptions_sent := 0, translations_sent := 0,
    errors := 0 }

/-- A server with one registered client. -/
def c10_state : ServerState :=
  { clients := [("alice", alice)], max_clients := 50,
    stats := ⟨1, 1, 0, 0, 0, 0, 0⟩, trans_cache := [] }

/-- A `connect` message reusing the id of the registered client. -/
def c10_ud : UserData := ⟨some "alice", some "Alice2", some "vi", some "vi"⟩

/-- A dummy audio chunk. -/
def c4_chunk : AudioChunk := ⟨[0], "alice", "Alice", 0⟩

/-- A session whose bounded queue is full (100 chunks, maxsize 100). -/
def c4_full_session : ClientSession :=
  { alice with audio_buffer := List.replicate 100 c4_chunk }

/-- An `audio_data` message with a non-empty payload. -/
def c4_msg : AudioMsg := ⟨"QUJD", none, none⟩

/-- A decoder that accepts the payload. -/
def c4_b64 : String → Option (List ℕ) := fun _ => some [65, 66, 67]

/-- A second registered session on another connection. -/
def bob : ClientSession :=
  { alice with websocket := 1, user_id := "bob", display_name := "Bob" }

/-- A server with two active sessions, `alice` on connection 0 and `bob` on
connection 1. -/
def c2_state : ServerState :=
  { clients := [("alice", alice), ("bob", bob)], max_clients := 50,
    stats := ⟨2, 2, 0, 0, 0, 0, 0⟩, trans_cache := [] }

/-- A send environment where connection 0 is closed and connection 1 is
healthy. -/
def c2_send : ℕ → SendOutcome :=
  fun ws => if ws = 0 then SendOutcome.conn_closed else SendOutcome.ok

/-- A transcription result to broadcast. -/
def c2_result : TranscriptionResult :=
  { speaker_id := "alice", speaker_name := "Alice", original_text := "hello",
    original_language := "en", original_language_confidence := 4/5,
    translated_text := "hello", target_language := "en",
    transcription_confidence := -1/2, translation_confidence := 1,
    is_final := true, timestamp := 0, audio_duration := 3/2,
    processing_time := 0, is_voice := true, audio_quality := 1/2 }

/-- Session `a`, one queued chunk whose audio the engine will fail on. -/
def c9_sess_a : ClientSession :=
  { alice with
      user_id := "a"
      display_name := "A"
      audio_buffer := [⟨[1], "a", "A", 0⟩] }

/-- Session `b`, one queued chunk whose audio the engine transcribes. -/
def c9_sess_b : ClientSession :=
  { alice with
      websocket := 1
      user_id := "b"
      display_name := "B"
      audio_buffer := [⟨[2], "b", "B", 0⟩] }

/-- A server with the two sessions `a` and `b`. -/
def c9_state : ServerState :=
  { clients := [("a", c9_sess_a), ("b", c9_sess_b)], max_clients := 50,
    stats := ⟨2, 2, 0, 0, 0, 0, 0⟩, trans_cache := [] }

/-- A pass environment: audio passes the quality gate; the engine raises on
session `a`'s audio and returns one English segment on session `b`'s; all
sends succeed. -/
def c9_env : PassEnv :=
  { process_audio := fun _ => ⟨1600, true, 1, 20, 1/10⟩,
    engine := fun bytes =>
      if bytes = [1] then Except.error ()
      else Except.ok ([⟨"hello world the and", -1/2⟩], ⟨some "en", 4/5⟩),
    penv := fail_env,
    send := fun _ => SendOutcome.ok,
    ptime := 1/100, now := 0 }

/-! ## Lemmas about the translator -/

/-- Every branch of `translate` returns normally. -/
theorem translate_isOk (env : String → ProviderOutcome)
    (cache : List (String × String)) (text target_lang source_lang : String) :
    ∃ out, translate env cache text target_lang source_lang = Except.ok out := by
  unfold translate
  dsimp only
  split
  · exact ⟨_, rfl⟩
  · split
    · exact ⟨_, rfl⟩
    · split
      · exact ⟨_, rfl⟩
      · exact ⟨_, rfl⟩

/-- When every enabled provider fails, the loop attempts each of them in
order and falls through to `(text, 0.0)` with the cache untouched. -/
theorem try_providers_all_fail (env : String → ProviderOutcome) (text : String)
    (cache : List (String × String)) (key : String) :
    ∀ ps : List (String × Bool),
      (∀ name, (name, true) ∈ ps → failing_outcome text (env name) = true) →
      try_providers env text cache key ps =
        ⟨(text, 0), cache,
         ps.filterMap (fun p => if p.2 then some p.1 else none), none⟩ := by
  intro ps
  induction ps with
  | nil => intro _; rfl
  | cons hd rest ih =>
    intro h
    obtain ⟨name, enabled⟩ := hd
    by_cases he : enabled = true
    · subst he
      have hf : failing_outcome text (env name) = true := h name (List.mem_cons_self _ _)
      have hrest := ih (fun n hn => h n (List.mem_cons_of_mem _ hn))
      rcases henv : env name with msg | ⟨t, c⟩
      · simp [try_providers, provider_request, henv, hrest]
      · rw [henv] at hf
        have ht : t = "" ∨ t = text := by
          simpa [failing_outcome] using hf
        have hcond : ¬ (t ≠ "" ∧ t ≠ text) := by
          rcases ht with ht | ht <;> simp [ht]
        simp [try_providers, provider_request, henv, hcond, hrest]
    · have he' : enabled = false := by simpa using he
      subst he'
      have hrest := ih (fun n hn => h n (List.mem_cons_of_mem _ hn))
      simp [try_providers, hrest]

/-- The provider loop either leaves the cache unchanged or, only when the
cache is below its capacity, appends exactly one entry at the computed key. -/
theorem try_providers_cache_shape (env : String → ProviderOutcome)
    (text : String) (cache : List (String × String)) (key : String) :
    ∀ ps : List (String × Bool),
      (try_providers env text cache key ps).cache = cache ∨
      (cache.length < cache_size_limit ∧
       ∃ r, (try_providers env text cache key ps).cache = cache ++ [(key, r)]) := by
  intro ps
  induction ps with
  | nil => left; rfl
  | cons hd rest ih =>
    obtain ⟨name, enabled⟩ := hd
    by_cases he : enabled = true
    · subst he
      rcases henv : env name with msg | ⟨t, c⟩
      · simpa [try_providers, provider_request, henv] using ih
      · by_cases hc : t ≠ "" ∧ t ≠ text
        · by_cases hlen : cache.length < cache_size_limit
          · right
            exact ⟨hlen, t, by simp [try_providers, provider_request, henv, hc, hlen]⟩
          · left
            simp [try_providers, provider_request, henv, hc, hlen]
        · simpa [try_providers, provider_request, henv, hc] using ih
    · have he' : enabled = false := by simpa using he
      subst he'
      simpa [try_providers] using ih

/-- The cache after one `translate` call is either unchanged or extended by
a single entry at a key that was not present before, and only when the cache
was below its capacity. -/
theorem translate_cache_shape (env : String → ProviderOutcome)
    (cache : List (String × String)) (text target_lang source_lang : String)
    (out : TranslateOut)
    (h : translate env cache text target_lang source_lang = Except.ok out) :
    out.cache = cache ∨
    ∃ k r, dictGet? cache k = none ∧ cache.length < cache_size_limit ∧
      out.cache = cache ++ [(k, r)] := by
  unfold translate at h
  dsimp only at h
  split at h
  · left; cases h; rfl
  · split at h
    · left; cases h; rfl
    · split at h
      · left; cases h; rfl
      · rename_i hkey
        cases h
        rcases try_providers_cache_shape env text cache _ providers with
          h1 | ⟨h1, r, h2⟩
        · left; exact h1
        · right; exact ⟨_, r, hkey, h1, h2⟩

/-- Capacity preservation for a single `translate` call. -/
theorem translate_cache_bound (env : String → ProviderOutcome)
    (cache : List (String × String)) (text target_lang source_lang : String)
    (out : TranslateOut)
    (h : translate env cache text target_lang source_lang = Except.ok out)
    (hb : cache.length ≤ cache_size_limit) :
    out.cache.length ≤ cache_size_limit := by
  rcases translate_cache_shape env cache text target_lang source_lang out h with
    h1 | ⟨k, r, _, hlt, h2⟩
  · rw [h1]; exact hb
  · rw [h2]; simpa using hlt

/-! ## C1 -/

/-- C1: `translate` never raises to its caller (every execution path returns
`Except.ok`), and whenever the call reaches the provider loop — the text has
non-whitespace content, the normalized language pair does not short-circuit,
and the cache misses — and every configured provider fails (raises, times
out, or returns empty or input-identical text), it attempts each provider in
order and returns `(original text, 0.0)` with the cache unchanged. -/
theorem claim_C1 :
    (∀ (env : String → ProviderOutcome) (cache : List (String × String))
       (text target_lang source_lang : String),
      ∃ out, translate env cache text target_lang source_lang = Except.ok out) ∧
    (∀ (env : String → ProviderOutcome) (cache : List (String × String))
       (text target_lang source_lang : String),
      (∀ name, (name, true) ∈ providers → failing_outcome text (env name) = true) →
      isBlank text = false →
      ¬ (normalize_lang_code source_lang = normalize_lang_code target_lang ∧
         normalize_lang_code source_lang ≠ "auto") →
      dictGet? cache (text.take 100 ++ ":" ++ normalize_lang_code source_lang ++
        ":" ++ normalize_lang_code target_lang) = none →
      translate env cache text target_lang source_lang =
        Except.ok ⟨(text, 0), cache, ["google", "mymemory"], 1, none⟩) := by
  constructor
  · exact translate_isOk
  · intro env cache text target_lang source_lang hfail hblank hshort hmiss
    unfold translate
    rw [hblank]
    simp only [Bool.false_eq_true, if_false]
    rw [if_neg hshort]
    rw [hmiss]
    rw [try_providers_all_fail env text cache _ providers hfail]
    rfl

/-- C1 witness: with both providers raising, a fresh (en → vi) request falls
back to the original text with confidence 0. -/
theorem claim_C1_witness :
    translate fail_env [] "hello" "vi" "en" =
      Except.ok ⟨("hello", 0), [], ["google", "mymemory"], 1, none⟩ :=
  claim_C1.2 fail_env [] "hello" "vi" "en" (fun _ _ => rfl) rfl (by decide) rfl

/-! ## C5 -/

/-- C5: with the detector healthy, `_detect_voice_activity` returns `true`
exactly when at least one frame was successfully classified and at least 30%
of the successfully classified frames are speech (frames whose classification
raised are counted as neither class, and zero classified frames yield
non-voice); when the detector itself fails, the decision defaults to voice. -/
theorem claim_C5 :
    ∀ (audioLen : ℕ) (classify : ℕ → FrameOutcome),
      detect_voice_activity audioLen classify true = true ∧
      (detect_voice_activity audioLen classify false = true ↔
        0 < (vad_counts audioLen classify).total_frames ∧
        3/10 ≤ ((vad_counts audioLen classify).voice_frames : ℚ) /
          ((vad_counts audioLen classify).total_frames : ℚ)) := by
  intro n classify
  refine ⟨rfl, ?_⟩
  by_cases h : n < frame_size * 2
  · have h0 : n - frame_size * 2 = 0 := Nat.sub_eq_zero_of_le h.le
    have hr : python_range0 (n - frame_size * 2) (frame_size * 2) = [] := by
      rw [h0]; rfl
    have hc : vad_counts n classify = ⟨0, 0⟩ := by
      unfold vad_counts; rw [hr]; rfl
    simp [detect_voice_activity, h, hc]
  · by_cases h0 : (vad_counts n classify).total_frames = 0
    · simp [detect_voice_activity, h, h0]
    · have hpos : 0 < (vad_counts n classify).total_frames :=
        Nat.pos_of_ne_zero h0
      simp [detect_voice_activity, h, h0, hpos, ge_iff_le]

/-! ## C6 -/

/-- C6 counterexample: for the all-whitespace text `" "` with source and
target both `"en"` (equal after normalization and distinct from `"auto"`),
`translate` returns confidence 0.0, not 1.0 — the blank-text early return
fires before the language-pair short-circuit. -/
theorem claim_C6_counterexample :
    normalize_lang_code "en" = normalize_lang_code "en" ∧
    normalize_lang_code "en" ≠ "auto" ∧
    ¬ ∃ out, translate fail_env [] " " "en" "en" = Except.ok out ∧
        out.ret = (" ", 1) := by
  refine ⟨rfl, by decide, ?_⟩
  rintro ⟨out, h1, h2⟩
  have he : translate fail_env [] " " "en" "en" =
      Except.ok ⟨(" ", 0), [], [], 0, none⟩ := rfl
  rw [he] at h1
  cases h1
  exact absurd h2 (by decide)

/-- C6 (amended): for every text with non-whitespace content, whenever the
normalized source language equals the normalized target language and is not
`"auto"`, `translate` returns the input text unchanged with confidence 1.0,
invoking no provider and performing no cache lookup. -/
theorem claim_C6 :
    ∀ (env : String → ProviderOutcome) (cache : List (String × String))
      (text target_lang source_lang : String),
      isBlank text = false →
      normalize_lang_code source_lang = normalize_lang_code target_lang →
      normalize_lang_code source_lang ≠ "auto" →
      translate env cache text target_lang source_lang =
        Except.ok ⟨(text, 1), cache, [], 0, none⟩ := by
  intro env cache text target_lang source_lang hblank heq hauto
  unfold translate
  rw [hblank]
  simp only [Bool.false_eq_true, if_false]
  rw [if_pos ⟨heq, hauto⟩]

/-- C6 witness. -/
theorem claim_C6_witness :
    isBlank "hello" = false ∧
    translate fail_env [] "hello" "en" "en" =
      Except.ok ⟨("hello", 1), [], [], 0, none⟩ :=
  ⟨rfl, claim_C6 fail_env [] "hello" "en" "en" rfl rfl (by decide)⟩

/-! ## C7 -/

set_option maxRecDepth 8000 in
/-- C7 counterexample: the cache key for `"hello"` from `"en"` to `"en"` is
present in the cache, yet `translate` returns `("hello", 1.0)` from the
source-equals-target short-circuit rather than the cached `("HELLO", 0.9)` —
the short-circuit precedes the cache lookup. -/
theorem claim_C7_counterexample :
    dictGet? c7_cache ("hello".take 100 ++ ":" ++ normalize_lang_code "en" ++
      ":" ++ normalize_lang_code "en") = some "HELLO" ∧
    ¬ ∃ out, translate fail_env c7_cache "hello" "en" "en" = Except.ok out ∧
        out.ret = ("HELLO", 9/10) := by
  refine ⟨by decide, ?_⟩
  rintro ⟨out, h1, h2⟩
  have he : translate fail_env c7_cache "hello" "en" "en" =
      Except.ok ⟨("hello", 1), c7_cache, [], 0, none⟩ := rfl
  rw [he] at h1
  cases h1
  exact absurd h2 (by decide)

/-- C7 (amended): for every text with non-whitespace content and every
language pair that does not short-circuit, when the cache key (the first 100
characters of the text plus the normalized source and target languages) is
present, `translate` returns the cached text with the fixed confidence 0.9,
invoking no provider and leaving the cache unchanged. -/
theorem claim_C7 :
    ∀ (env : String → ProviderOutcome) (cache : List (String × String))
      (text target_lang source_lang : String) (v : String),
      isBlank text = false →
      ¬ (normalize_lang_code source_lang = normalize_lang_code target_lang ∧
         normalize_lang_code source_lang ≠ "auto") →
      dictGet? cache (text.take 100 ++ ":" ++ normalize_lang_code source_lang ++
        ":" ++ normalize_lang_code target_lang) = some v →
      translate env cache text target_lang source_lang =
        Except.ok ⟨(v, 9/10), cache, [], 1, none⟩ := by
  intro env cache text target_lang source_lang v hblank hshort hhit
  unfold translate
  rw [hblank]
  simp only [Bool.false_eq_true, if_false]
  rw [if_neg hshort]
  rw [hhit]

set_option maxRecDepth 8000 in
/-- C7 witness. -/
theorem claim_C7_witness :
    dictGet? c7_hit_cache ("hello".take 100 ++ ":" ++ normalize_lang_code "en"
      ++ ":" ++ normalize_lang_code "vi") = some "xin chao" ∧
    translate fail_env c7_hit_cache "hello" "vi" "en" =
      Except.ok ⟨("xin chao", 9/10), c7_hit_cache, [], 1, none⟩ :=
  ⟨rfl, claim_C7 fail_env c7_hit_cache "hello" "vi" "en" "xin chao" rfl
    (by decide) rfl⟩

/-! ## C8 -/

/-- C8: the translation cache is insert-capped without eviction: a call made
with the cache at or above `cache_size_limit` leaves the cache unchanged; a
call never removes or overwrites an entry (the cache is unchanged or grows by
one fresh key); one call preserves the capacity bound; and the bound holds
after any sequence of `translate` calls. -/
theorem claim_C8 :
    (∀ (env : String → ProviderOutcome) (cache : List (String × String))
       (text target_lang source_lang : String) (out : TranslateOut),
      translate env cache text target_lang source_lang = Except.ok out →
      cache_size_limit ≤ cache.length →
      out.cache = cache) ∧
    (∀ (env : String → ProviderOutcome) (cache : List (String × String))
       (text target_lang source_lang : String) (out : TranslateOut),
      translate env cache text target_lang source_lang = Except.ok out →
      out.cache = cache ∨
      ∃ k r, dictGet? cache k = none ∧ out.cache = cache ++ [(k, r)]) ∧
    (∀ (env : String → ProviderOutcome) (cache : List (String × String))
       (text target_lang source_lang : String) (out : TranslateOut),
      translate env cache text target_lang source_lang = Except.ok out →
      cache.length ≤ cache_size_limit →
      out.cache.length ≤ cache_size_limit) ∧
    (∀ (cache : List (String × String)) (calls : List TransCall),
      cache.length ≤ cache_size_limit →
      (calls.foldl apply_translate cache).length ≤ cache_size_limit) := by
  refine ⟨?_, ?_, ?_, ?_⟩
  · intro env cache text tl sl out h hfull
    rcases translate_cache_shape env cache text tl sl out h with
      h1 | ⟨k, r, _, hlt, _⟩
    · exact h1
    · exact absurd hlt (by omega)
  · intro env cache text tl sl out h
    rcases translate_cache_shape env cache text tl sl out h with
      h1 | ⟨k, r, hk, _, h2⟩
    · exact Or.inl h1
    · exact Or.inr ⟨k, r, hk, h2⟩
  · intro env cache text tl sl out h hb
    exact translate_cache_bound env cache text tl sl out h hb
  · intro cache calls
    induction calls generalizing cache with
    | nil => intro hb; simpa using hb
    | cons c cs ih =>
      intro hb
      rw [List.foldl_cons]
      apply ih
      unfold apply_translate
      rcases translate_isOk c.env cache c.text c.target_lang c.source_lang with
        ⟨out, hout⟩
      rw [hout]
      exact translate_cache_bound c.env cache c.text c.target_lang
        c.source_lang out hout hb

/-- C8 witness: a call on a cache already at capacity (with a successful,
changed provider translation available) leaves the cache unchanged. -/
theorem claim_C8_witness :
    ∃ out, translate (fun _ => ProviderOutcome.returns "bonjour" 1) big_cache
        "hello" "fr" "en" = Except.ok out ∧ out.cache = big_cache := by
  obtain ⟨out, h⟩ := translate_isOk (fun _ => ProviderOutcome.returns "bonjour" 1)
    big_cache "hello" "fr" "en"
  refine ⟨out, h, ?_⟩
  exact claim_C8.1 _ _ _ _ _ _ h
    (by simp only [big_cache, List.length_replicate, cache_size_limit]; exact Nat.le_refl _)

/-! ## Lemmas about the dict model and the session registry -/

/-- A key is absent exactly when it is not among the keys. -/
theorem dictGet?_eq_none_iff {α : Type} (m : List (String × α)) (k : String) :
    dictGet? m k = none ↔ k ∉ m.map Prod.fst := by
  induction m with
  | nil => simp [dictGet?]
  | cons hd t ih =>
    obtain ⟨a, b⟩ := hd
    by_cases h : a = k
    · subst h; simp [dictGet?]
    · simp only [dictGet?, if_neg h]
      rw [ih]
      simp only [List.map_cons, List.mem_cons, not_or]
      constructor
      · intro hk; exact ⟨fun hh => h hh.symm, hk⟩
      · intro hk; exact hk.2

/-- Lookup after the in-place replacement branch of `dictSet`. -/
theorem dictGet?_map_replace {α : Type} (m : List (String × α)) (k : String)
    (v : α) :
    dictGet? (m.map (fun p => if p.1 = k then (k, v) else p)) k =
      if (dictGet? m k).isSome then some v else none := by
  induction m with
  | nil => simp [dictGet?]
  | cons hd t ih =>
    obtain ⟨a, b⟩ := hd
    by_cases h : a = k
    · subst h
      have hh : (fun p => if p.1 = a then (a, v) else p) ((a, b) : String × α) =
          (a, v) := by simp
      simp only [List.map_cons, hh]
      simp [dictGet?]
    · have hh : (fun p => if p.1 = k then (k, v) else p) ((a, b) : String × α) =
          (a, b) := by simp [h]
      simp only [List.map_cons, hh]
      simp only [dictGet?, if_neg h]
      exact ih

/-- Lookup after the append branch of `dictSet`. -/
theorem dictGet?_append_self {α : Type} (m : List (String × α)) (k : String)
    (v : α) (h : dictGet? m k = none) :
    dictGet? (m ++ [(k, v)]) k = some v := by
  induction m with
  | nil => simp [dictGet?]
  | cons hd t ih =>
    obtain ⟨a, b⟩ := hd
    by_cases ha : a = k
    · subst ha; simp [dictGet?] at h
    · simp only [dictGet?, if_neg ha] at h
      simp only [List.cons_append, dictGet?, if_neg ha]
      exact ih h

/-- `d[k] = v` makes `d[k]` yield `v`. -/
theorem dictGet?_dictSet_self {α : Type} (m : List (String × α)) (k : String)
    (v : α) : dictGet? (dictSet m k v) k = some v := by
  unfold dictSet
  by_cases h : (dictGet? m k).isSome
  · rw [if_pos h, dictGet?_map_replace, if_pos h]
  · rw [if_neg h]
    apply dictGet?_append_self
    rcases hh : dictGet? m k with _ | v'
    · rfl
    · rw [hh] at h; simp at h

/-- `dictSet` preserves the size on replacement and grows it by one on a
fresh key. -/
theorem dictSet_length {α : Type} (m : List (String × α)) (k : String)
    (v : α) :
    (dictSet m k v).length =
      if (dictGet? m k).isSome then m.length else m.length + 1 := by
  unfold dictSet
  by_cases h : (dictGet? m k).isSome
  · simp [h]
  · simp [h]

/-- The replacement branch of `dictSet` keeps the key sequence. -/
theorem map_fst_map_replace {α : Type} (m : List (String × α)) (k : String)
    (v : α) :
    (m.map (fun p => if p.1 = k then (k, v) else p)).map Prod.fst =
      m.map Prod.fst := by
  induction m with
  | nil => rfl
  | cons hd t ih =>
    obtain ⟨a, b⟩ := hd
    by_cases h : a = k
    · subst h; simp [ih]
    · simp [h, ih]

/-- `dictSet` preserves distinctness of keys. -/
theorem nodup_keys_dictSet {α : Type} (m : List (String × α)) (k : String)
    (v : α) (h : (m.map Prod.fst).Nodup) :
    ((dictSet m k v).map Prod.fst).Nodup := by
  unfold dictSet
  by_cases hs : (dictGet? m k).isSome
  · rw [if_pos hs, map_fst_map_replace]; exact h
  · rw [if_neg hs]
    have hk : k ∉ m.map Prod.fst := by
      rw [← dictGet?_eq_none_iff]
      rcases hh : dictGet? m k with _ | _
      · rfl
      · rw [hh] at hs; simp at hs
    simp [List.nodup_append, h, hk]

/-- Erasure by key removes the key entirely when keys are distinct. -/
theorem dictGet?_eraseP_self {α : Type} (m : List (String × α)) (k : String)
    (h : (m.map Prod.fst).Nodup) :
    dictGet? (m.eraseP (fun p => p.1 == k)) k = none := by
  induction m with
  | nil => rfl
  | cons hd t ih =>
    obtain ⟨a, b⟩ := hd
    simp only [List.map_cons, List.nodup_cons] at h
    by_cases ha : a = k
    · subst ha
      simp only [List.eraseP_cons, beq_self_eq_true, cond_true]
      rw [dictGet?_eq_none_iff]
      exact h.1
    · have hb : ((a, b).1 == k) = false := by simp [ha]
      simp only [List.eraseP_cons, hb, cond_false, dictGet?, if_neg ha]
      exact ih h.2

/-- Erasing an absent key is a no-op. -/
theorem eraseP_dictGet?_none {α : Type} (m : List (String × α)) (k : String)
    (h : dictGet? m k = none) :
    m.eraseP (fun p => p.1 == k) = m := by
  induction m with
  | nil => rfl
  | cons hd t ih =>
    obtain ⟨a, b⟩ := hd
    by_cases ha : a = k
    · subst ha; simp [dictGet?] at h
    · simp only [dictGet?, if_neg ha] at h
      have hb : ((a, b).1 == k) = false := by simp [ha]
      simp [List.eraseP_cons, hb, ih h]

/-- Invariant of the session registry: the active-client counter equals the
registry size, and registry keys are distinct. -/
def StInv (st : ServerState) : Prop :=
  st.stats.active_clients = st.clients.length ∧
  (st.clients.map Prod.fst).Nodup

/-- `register_client` preserves the registry invariant. -/
theorem stinv_register (st : ServerState) (ws : ℕ) (ud : UserData)
    (genId : String) (now : ℚ) (h : StInv st) :
    StInv (register_client st ws ud genId now).state := by
  unfold register_client
  by_cases hc : st.clients.length ≥ st.max_clients
  · rw [if_pos hc]; exact h
  · rw [if_neg hc]
    exact ⟨rfl, nodup_keys_dictSet _ _ _ h.2⟩

/-- `cleanup_client` preserves the registry invariant. -/
theorem stinv_cleanup (st : ServerState) (id : String) (h : StInv st) :
    StInv (cleanup_client st id) := by
  unfold cleanup_client
  split
  · exact h
  · exact ⟨rfl, ((List.eraseP_sublist _).map Prod.fst).nodup h.2⟩

/-- Any registry operation preserves the invariant. -/
theorem stinv_apply (st : ServerState) (op : RegOp) (h : StInv st) :
    StInv (apply_reg_op st op) := by
  cases op with
  | register ws ud genId now => exact stinv_register st ws ud genId now h
  | cleanup id => exact stinv_cleanup st id h

/-- The invariant holds along any operation sequence. -/
theorem stinv_foldl (ops : List RegOp) (st : ServerState) (h : StInv st) :
    StInv (ops.foldl apply_reg_op st) := by
  induction ops generalizing st with
  | nil => simpa using h
  | cons op rest ih =>
    rw [List.foldl_cons]
    exact ih _ (stinv_apply st op h)

/-- With distinct registry keys, a second cleanup of the same id is a no-op. -/
theorem cleanup_client_idem (st : ServerState) (id : String)
    (hnd : (st.clients.map Prod.fst).Nodup) :
    cleanup_client (cleanup_client st id) id = cleanup_client st id := by
  rcases hh : dictGet? st.clients id with _ | s
  · have h1 : cleanup_client st id = st := by
      unfold cleanup_client; rw [hh]
    rw [h1, h1]
  · have h2 : dictGet? (st.clients.eraseP (fun p => p.1 == id)) id = none :=
      dictGet?_eraseP_self st.clients id hnd
    have h1 : cleanup_client st id =
        { st with
            clients := st.clients.eraseP (fun p => p.1 == id)
            stats := { st.stats with
              active_clients := (st.clients.eraseP (fun p => p.1 == id)).length } } := by
      unfold cleanup_client; rw [hh]
    rw [h1]
    unfold cleanup_client
    dsimp only
    rw [h2]

/-! ## C3 -/

/-- C3: starting from a fresh server, after every sequence of register and
cleanup operations — including cleanups repeated for the same id or applied
to never-registered ids — the active-client counter equals the registry size;
and on any reachable state a second cleanup of the same session id changes
nothing (cleanup is idempotent). -/
theorem claim_C3 :
    (∀ (maxc : ℕ) (ops : List RegOp),
      (ops.foldl apply_reg_op (initial_state maxc)).stats.active_clients =
        (ops.foldl apply_reg_op (initial_state maxc)).clients.length) ∧
    (∀ (maxc : ℕ) (ops : List RegOp) (id : String),
      (ops ++ [RegOp.cleanup id, RegOp.cleanup id]).foldl apply_reg_op
          (initial_state maxc) =
        (ops ++ [RegOp.cleanup id]).foldl apply_reg_op (initial_state maxc)) := by
  have hinit : ∀ maxc : ℕ, StInv (initial_state maxc) :=
    fun _ => ⟨rfl, List.nodup_nil⟩
  constructor
  · intro maxc ops
    exact (stinv_foldl ops (initial_state maxc) (hinit maxc)).1
  · intro maxc ops id
    simp only [List.foldl_append, List.foldl_cons, List.foldl_nil, apply_reg_op]
    exact cleanup_client_idem _ id
      (stinv_foldl ops (initial_state maxc) (hinit maxc)).2

/-! ## C10 -/

/-- C10: registering a client whose userId is already registered (with spare
capacity) succeeds and silently replaces the existing entry: the registry
size is unchanged (the old session object is dropped without cleanup), the
total-clients counter is incremented again, the active-clients counter still
equals the registry size, the only message sent is the acknowledgement to the
new connection (the old session is not notified), and the registry now maps
the id to a fresh session on the new connection with an empty queue. -/
theorem claim_C10 :
    ∀ (st : ServerState) (ws : ℕ) (ud : UserData) (genId : String) (now : ℚ)
      (uid : String) (old : ClientSession),
      dictGet? st.clients uid = some old →
      st.clients.length < st.max_clients →
      ud.userId = some uid →
      (register_client st ws ud genId now).success = true ∧
      (register_client st ws ud genId now).state.clients.length =
        st.clients.length ∧
      (register_client st ws ud genId now).state.stats.total_clients =
        st.stats.total_clients + 1 ∧
      (register_client st ws ud genId now).state.stats.active_clients =
        (register_client st ws ud genId now).state.clients.length ∧
      (register_client st ws ud genId now).sent =
        [(ws, OutMsg.connection_established uid)] ∧
      ∃ fresh : ClientSession,
        dictGet? (register_client st ws ud genId now).state.clients uid =
          some fresh ∧
        fresh.websocket = ws ∧ fresh.audio_buffer = [] ∧
        fresh.is_active = true ∧ fresh.chunks_received = 0 := by
  intro st ws ud genId now uid old hold hlt hud
  have hcap : ¬ st.clients.length ≥ st.max_clients := not_le.mpr hlt
  have hsome : (dictGet? st.clients uid).isSome := by rw [hold]; rfl
  unfold register_client
  rw [if_neg hcap, hud]
  dsimp only [Option.getD_some]
  refine ⟨rfl, ?_, rfl, rfl, rfl, ?_⟩
  · rw [dictSet_length, if_pos hsome]
  · exact ⟨_, dictGet?_dictSet_self _ _ _, rfl, rfl, rfl, rfl⟩

/-- C10 witness. -/
theorem claim_C10_witness :
    (register_client c10_state 7 c10_ud "gen" 1).success = true ∧
    (register_client c10_state 7 c10_ud "gen" 1).state.clients.length = 1 ∧
    (register_client c10_state 7 c10_ud "gen" 1).state.stats.total_clients = 2 ∧
    (register_client c10_state 7 c10_ud "gen" 1).sent =
      [(7, OutMsg.connection_established "alice")] := by
  have h := claim_C10 c10_state 7 c10_ud "gen" 1 "alice" alice rfl
    (by decide) rfl
  exact ⟨h.1, h.2.1, h.2.2.1, h.2.2.2.2.1⟩

/-! ## C4 -/

/-- When the queue is full, `handle_audio_data` drops the chunk. -/
theorem handle_audio_data_full (session : ClientSession) (msg : AudioMsg)
    (b64 : String → Option (List ℕ)) (now : ℚ)
    (h : session.audio_buffer_maxsize ≤ session.audio_buffer.length) :
    (handle_audio_data session msg b64 now).audio_buffer =
      session.audio_buffer := by
  unfold handle_audio_data
  dsimp only
  split
  · rfl
  · split
    · rfl
    · rw [if_neg (not_lt.mpr h)]

/-- Draining never lengthens the queue. -/
theorem collect_chunks_remaining_le :
    ∀ (buf acc : List AudioChunk),
      ((collect_chunks buf acc).2).length ≤ buf.length := by
  intro buf
  induction buf with
  | nil => intro acc; simp [collect_chunks]
  | cons c rest ih =>
    intro acc
    unfold collect_chunks
    by_cases h : acc.length < 5
    · rw [if_pos h]
      exact (ih (acc ++ [c])).trans (by rw [List.length_cons]; omega)
    · simp [h]

/-- One ingestion step preserves the capacity bound. -/
theorem handle_audio_data_len (session : ClientSession) (msg : AudioMsg)
    (b64 : String → Option (List ℕ)) (now : ℚ)
    (h : session.audio_buffer.length ≤ session.audio_buffer_maxsize) :
    (handle_audio_data session msg b64 now).audio_buffer.length ≤
      session.audio_buffer_maxsize := by
  unfold handle_audio_data
  dsimp only
  split
  · exact h
  · split
    · exact h
    · split
      · rename_i hlt
        simp only [List.length_append, List.length_cons, List.length_nil]
        omega
      · exact h

/-- Queue operations do not change the configured capacity. -/
theorem apply_buf_op_maxsize (b64 : String → Option (List ℕ))
    (s : ClientSession) (op : BufOp) :
    (apply_buf_op b64 s op).audio_buffer_maxsize = s.audio_buffer_maxsize := by
  cases op with
  | drain => rfl
  | audio msg now =>
    dsimp only [apply_buf_op]
    unfold handle_audio_data
    dsimp only
    split
    · rfl
    · split
      · rfl
      · split <;> rfl

/-- One queue operation preserves the capacity bound. -/
theorem apply_buf_op_len (b64 : String → Option (List ℕ))
    (s : ClientSession) (op : BufOp)
    (h : s.audio_buffer.length ≤ s.audio_buffer_maxsize) :
    (apply_buf_op b64 s op).audio_buffer.length ≤ s.audio_buffer_maxsize := by
  cases op with
  | audio msg now => exact handle_audio_data_len s msg b64 now h
  | drain => exact le_trans (collect_chunks_remaining_le _ _) h

/-- C4: enqueueing on a full session queue is a silent no-op on the queue
(the chunk is dropped; the total function never blocks or raises), and after
any sequence of enqueue and drain operations the queue length never exceeds
the configured capacity. -/
theorem claim_C4 :
    (∀ (b64 : String → Option (List ℕ)) (session : ClientSession)
       (msg : AudioMsg) (now : ℚ),
      session.audio_buffer_maxsize ≤ session.audio_buffer.length →
      (handle_audio_data session msg b64 now).audio_buffer =
        session.audio_buffer) ∧
    (∀ (b64 : String → Option (List ℕ)) (s : ClientSession) (ops : List BufOp),
      s.audio_buffer.length ≤ s.audio_buffer_maxsize →
      (ops.foldl (apply_buf_op b64) s).audio_buffer.length ≤
        s.audio_buffer_maxsize) := by
  constructor
  · intro b64 session msg now h
    exact handle_audio_data_full session msg b64 now h
  · intro b64 s ops
    induction ops generalizing s with
    | nil => intro h; simpa using h
    | cons op rest ih =>
      intro h
      rw [List.foldl_cons]
      have ihh := ih (apply_buf_op b64 s op)
        (by rw [apply_buf_op_maxsize]; exact apply_buf_op_len b64 s op h)
      rw [apply_buf_op_maxsize] at ihh
      exact ihh

/-- C4 witness: a full queue (100 of 100) drops the chunk, and an
enqueue-then-drain sequence respects the bound. -/
theorem claim_C4_witness :
    c4_full_session.audio_buffer_maxsize ≤ c4_full_session.audio_buffer.length ∧
    (handle_audio_data c4_full_session c4_msg c4_b64 1).audio_buffer =
      c4_full_session.audio_buffer ∧
    (([BufOp.audio c4_msg 1, BufOp.drain]).foldl (apply_buf_op c4_b64)
      c4_full_session).audio_buffer.length ≤
      c4_full_session.audio_buffer_maxsize := by
  have h1 : c4_full_session.audio_buffer_maxsize ≤
      c4_full_session.audio_buffer.length := by
    show (100 : ℕ) ≤ (List.replicate 100 c4_chunk).length
    rw [List.length_replicate]
  have h2 : c4_full_session.audio_buffer.length ≤
      c4_full_session.audio_buffer_maxsize := by
    show (List.replicate 100 c4_chunk).length ≤ (100 : ℕ)
    rw [List.length_replicate]
  exact ⟨h1, claim_C4.1 c4_b64 c4_full_session c4_msg 1 h1,
    claim_C4.2 c4_b64 c4_full_session _ h2⟩

/-! ## C2 -/

/-- C2: with two active sessions of which `alice`'s connection is closed,
broadcasting delivers to the remaining session `bob`, but — because
`send_message` swallows `ConnectionClosed` before `broadcast_transcription`'s
handler can observe it — the closed session is never recorded as
disconnected: it stays in the registry, stays active, and is never cleaned
up.  The dead-code `ConnectionClosed` handler in `broadcast_transcription`
shows the source intended the behaviour the claim describes. -/
theorem claim_C2_code_divergence :
    (broadcast_transcription c2_state c2_send c2_result).delivered = ["bob"] ∧
    (broadcast_transcription c2_state c2_send c2_result).disconnected = [] ∧
    (broadcast_transcription c2_state c2_send c2_result).state = c2_state :=
  ⟨rfl, rfl, rfl⟩

/-! ## C9 -/

/-- An engine failure inside `_transcribe_audio` is caught at its boundary:
the call returns no results and leaves the stats and the cache untouched. -/
theorem transcribe_audio_engine_error (audioLen : ℕ) (e : Unit)
    (penv : String → ProviderOutcome)
    (target_language speaker_id speaker_name : String)
    (md : ℚ) (mv : Bool) (mq : ℚ) (now : ℚ) (stats : ServerStats)
    (cache : List (String × String)) :
    transcribe_audio audioLen (Except.error e) penv target_language
      speaker_id speaker_name md mv mq now stats cache = ([], stats, cache) := by
  unfold transcribe_audio
  split
  · rfl
  · rfl

/-- An engine failure while processing one session's batch yields no
broadcasts, leaves the registry untouched, and increments no error or
transcription counter. -/
theorem process_audio_chunks_engine_error (st : ServerState) (env : PassEnv)
    (uid : String) (session : ClientSession) (chunks : List AudioChunk)
    (e : Unit)
    (h : env.engine ((chunks.map (fun c => c.audio_data)).flatten) =
      Except.error e) :
    (process_audio_chunks st env uid session chunks).2 = [] ∧
    (process_audio_chunks st env uid session chunks).1.clients = st.clients ∧
    (process_audio_chunks st env uid session chunks).1.stats.error_count =
      st.stats.error_count ∧
    (process_audio_chunks st env uid session chunks).1.stats.total_transcriptions =
      st.stats.total_transcriptions := by
  cases chunks with
  | nil => exact ⟨rfl, rfl, rfl, rfl⟩
  | cons c0 cs =>
    unfold process_audio_chunks
    dsimp only
    split
    · exact ⟨rfl, rfl, rfl, rfl⟩
    · rw [h, transcribe_audio_engine_error]
      exact ⟨rfl, rfl, rfl, rfl⟩

/-- Every `pass_step` appends exactly its session id to the visited trace. -/
theorem pass_step_visited (env : PassEnv) :
    ∀ (ids : List String)
      (acc : ServerState × List TranscriptionResult × List String),
      (ids.foldl (pass_step env) acc).2.2 = acc.2.2 ++ ids := by
  intro ids
  induction ids with
  | nil => intro acc; simp
  | cons i rest ih =>
    intro acc
    rw [List.foldl_cons, ih]
    have hstep : (pass_step env acc i).2.2 = acc.2.2 ++ [i] := by
      unfold pass_step
      dsimp only
      split
      · rfl
      · split
        · rfl
        · split
          · rfl
          · rfl
    rw [hstep]
    simp

/-- C9 (amended): a transcription-engine failure while processing one
session's drained batch is caught at the `_transcribe_audio` boundary and
logged, the batch is dropped, the registry, the error counters and the
transcription counters are left unchanged (the failure is *not* counted),
and the scheduler pass still visits every registered session. -/
theorem claim_C9 :
    (∀ (audioLen : ℕ) (e : Unit) (penv : String → ProviderOutcome)
       (target_language speaker_id speaker_name : String)
       (md : ℚ) (mv : Bool) (mq : ℚ) (now : ℚ) (stats : ServerStats)
       (cache : List (String × String)),
      transcribe_audio audioLen (Except.error e) penv target_language
        speaker_id speaker_name md mv mq now stats cache =
        ([], stats, cache)) ∧
    (∀ (st : ServerState) (env : PassEnv) (uid : String)
       (session : ClientSession) (chunks : List AudioChunk) (e : Unit),
      env.engine ((chunks.map (fun c => c.audio_data)).flatten) =
        Except.error e →
      (process_audio_chunks st env uid session chunks).2 = [] ∧
      (process_audio_chunks st env uid session chunks).1.clients =
        st.clients ∧
      (process_audio_chunks st env uid session chunks).1.stats.error_count =
        st.stats.error_count ∧
      (process_audio_chunks st env uid session
        chunks).1.stats.total_transcriptions =
        st.stats.total_transcriptions) ∧
    (∀ (st : ServerState) (env : PassEnv),
      (background_pass st env).visited = st.clients.map Prod.fst) := by
  refine ⟨transcribe_audio_engine_error, process_audio_chunks_engine_error, ?_⟩
  intro st env
  unfold background_pass
  dsimp only
  rw [pass_step_visited]
  simp

/-- C9 witness: on a concrete batch whose audio the engine fails on, the
failure is swallowed, nothing is broadcast and the error counter is
unchanged. -/
theorem claim_C9_witness :
    c9_env.engine [1] = Except.error () ∧
    (process_audio_chunks c9_state c9_env "a" c9_sess_a
      [⟨[1], "a", "A", 0⟩]).2 = [] ∧
    (process_audio_chunks c9_state c9_env "a" c9_sess_a
      [⟨[1], "a", "A", 0⟩]).1.stats.error_count = 0 :=
  ⟨rfl,
   (claim_C9.2.1 c9_state c9_env "a" c9_sess_a [⟨[1], "a", "A", 0⟩] () rfl).1,
   (claim_C9.2.1 c9_state c9_env "a" c9_sess_a [⟨[1], "a", "A", 0⟩] () rfl).2.2.1⟩

unseal Rat.add Rat.mul Rat.inv Rat.sub in
/-- C9 counterexample to the claim as stated: in a pass over sessions `a`
and `b` where the engine fails on `a`'s batch and succeeds on `b`'s, the
pass completes (it broadcasts `b`'s one result), yet neither the aggregate
`error_count` nor session `a`'s error counter is incremented — the failure
is caught and logged but never counted in the error counters. -/
theorem claim_C9_counterexample :
    c9_env.engine ((c9_sess_a.audio_buffer.map (fun c => c.audio_data)).flatten) =
      Except.error () ∧
    (background_pass c9_state c9_env).state.stats.error_count = 0 ∧
    (dictGet? (background_pass c9_state c9_env).state.clients "a").map
      (fun s => s.errors) = some 0 ∧
    (background_pass c9_state c9_env).broadcasts.length = 1 :=
  ⟨rfl, by decide, by decide, by decide⟩

end GlobeCast
